import Mathlib

/-!
Shallow embedding of the photo-memories bot (main.py, yandex_disk.py,
telegram_publisher.py): the date-resolution chain, the per-account photo
search with path-based deduplication, the two-account merge with name-based
deduplication, the yearly selection with its adaptive quota and two-source
interleaving, and the Telegram publisher's caption construction and
rate-limit retry behaviour.  Network I/O is modelled by passing the records
a listing would have returned (for the storage side) and the responses the
HTTP API would have produced (for the messaging side); everything else is a
direct translation of the Python source.
-/

namespace FamilyBot

/-- A calendar date with time-of-day, as produced by Python `datetime`. -/
structure PyDateTime where
  year : Nat
  month : Nat
  day : Nat
  hour : Nat
  minute : Nat
  second : Nat
deriving DecidableEq, Repr

/-- One raw record from a Yandex.Disk listing (`item` dict in yandex_disk.py).
`exifDateTime` models `item.get('exif', {}).get('date_time')`; `file` is
the download URL field.  Fields the API may omit are `Option`s. -/
structure Item where
  name : String
  path : String
  file : Option String
  created : Option String
  modified : Option String
  exifDateTime : Option String
  size : Nat
  type : String
deriving DecidableEq, Repr

/-- Which Yandex.Disk account a photo came from (`'disk_1'` / `'disk_2'`). -/
inductive Source where
  | disk1
  | disk2
deriving DecidableEq, Repr

/-- The photo dict built in `find_photos_by_date`, plus the `source` tag that
`main` adds afterwards (absent until tagging, hence `Option`). -/
structure Photo where
  name : String
  path : String
  download_url : String
  created : Option String
  modified : Option String
  date : PyDateTime
  year : Nat
  size : Nat
  source : Option Source
deriving DecidableEq, Repr

/-! ## Calendar arithmetic (Python `datetime` constructor validity) -/

/-- Gregorian leap year, as Python's `calendar`/`datetime` use. -/
def is_leap (y : Nat) : Bool :=
  y % 4 = 0 && (y % 100 ≠ 0 || y % 400 = 0)

/-- Days in a month of a given year. -/
def days_in_month (y m : Nat) : Nat :=
  if m = 2 then (if is_leap y then 29 else 28)
  else if m = 4 || m = 6 || m = 9 || m = 11 then 30
  else 31

/-- Whether `datetime(y, m, d)` succeeds (MINYEAR = 1, MAXYEAR = 9999). -/
def valid_date (y m d : Nat) : Bool :=
  1 ≤ y && y ≤ 9999 && 1 ≤ m && m ≤ 12 && 1 ≤ d && d ≤ days_in_month y m

/-- Models `int(...)` on a run of decimal digit characters. -/
def to_nat (cs : List Char) : Nat :=
  cs.foldl (fun a c => a * 10 + (c.toNat - '0'.toNat)) 0

/-- Matches `\s`: the ASCII whitespace characters Python's `re`/`strptime` accept. -/
def is_space_char (c : Char) : Bool :=
  c = ' ' || c = '\t' || c = '\n' || c = '\r' || c = '\x0b' || c = '\x0c'

/-- Matches `\w` for the alphabets this repository's data uses: ASCII alphanumerics,
underscore, and the Cyrillic block (Python's `re` is Unicode-aware; file and
folder names here are ASCII or Cyrillic). -/
def is_word_char (c : Char) : Bool :=
  c.isAlphanum || c = '_' || (0x400 ≤ c.toNat && c.toNat ≤ 0x4ff)

/-- A `takeWhile`/`dropWhile` split, used to model greedy runs in the parsers. -/
def span_p (p : Char → Bool) (cs : List Char) : List Char × List Char :=
  (cs.takeWhile p, cs.dropWhile p)

/-! ## EXIF timestamp parsing
`datetime.strptime(s, '%Y:%m:%d %H:%M:%S')`: `%Y` is exactly four digits,
the other numeric fields are one or two digits within their ranges, the
blank in the format matches one or more whitespace characters, and the whole
string must be consumed; the resulting `datetime(...)` construction also
validates the day against the month. -/

def parse_exif_chars (cs : List Char) : Option PyDateTime :=
  let (yc, r0) := span_p Char.isDigit cs
  if yc.length ≠ 4 then none else
  match r0 with
  | ':' :: r1 =>
    let (moc, r1b) := span_p Char.isDigit r1
    if moc.length = 0 || 2 < moc.length then none else
    match r1b with
    | ':' :: r2 =>
      let (dc, r2b) := span_p Char.isDigit r2
      if dc.length = 0 || 2 < dc.length then none else
      let (ws, r3) := span_p is_space_char r2b
      if ws.isEmpty then none else
      let (hc, r3b) := span_p Char.isDigit r3
      if hc.length = 0 || 2 < hc.length then none else
      match r3b with
      | ':' :: r4 =>
        let (mic, r4b) := span_p Char.isDigit r4
        if mic.length = 0 || 2 < mic.length then none else
        match r4b with
        | ':' :: r5 =>
          let (sc, r5b) := span_p Char.isDigit r5
          if sc.length = 0 || 2 < sc.length then none else
          if r5b.isEmpty then
            let y := to_nat yc
            let mo := to_nat moc
            let d := to_nat dc
            let h := to_nat hc
            let mi := to_nat mic
            let se := to_nat sc
            if h ≤ 23 && mi ≤ 59 && se ≤ 59 && valid_date y mo d then
              some ⟨y, mo, d, h, mi, se⟩
            else none
          else none
        | _ => none
      | _ => none
    | _ => none
  | _ => none

/-- Models `datetime.strptime(s, '%Y:%m:%d %H:%M:%S')` as an `Option`. -/
def parse_exif (s : String) : Option PyDateTime :=
  parse_exif_chars s.data

/-! ## Path date extraction (`_extract_date_from_path`)
Regex `(\d{1,2})\s+([а-я]+)\s+(\d{4})` with `re.I`, searched left to right;
the first match's month token is looked up by 3-letter prefix in a fixed
table, and `datetime(...)` validity failure yields `None` (no further
search). -/

def is_cyr_i (c : Char) : Bool :=
  ('а' ≤ c && c ≤ 'я') || ('А' ≤ c && c ≤ 'Я')

/-- Lowercasing as `.lower()` behaves on the month tokens (Cyrillic range). -/
def lower_ru (c : Char) : Char :=
  if 'А' ≤ c && c ≤ 'Я' then Char.ofNat (c.toNat + 32) else c

/-- The `months` dict of `_extract_date_from_path`, in insertion order. -/
def month_table : List (List Char × Nat) :=
  [(['я','н','в'], 1), (['ф','е','в'], 2), (['м','а','р'], 3),
   (['а','п','р'], 4), (['м','а','я'], 5), (['и','ю','н'], 6),
   (['и','ю','л'], 7), (['а','в','г'], 8), (['с','е','н'], 9),
   (['о','к','т'], 10), (['н','о','я'], 11), (['д','е','к'], 12)]

/-- Matches `\s+([а-я]+)\s+(\d{4})` at the start of `cs` (the runs are over
disjoint character classes, so greedy matching needs no backtracking);
returns the month-name and year captures. -/
def match_path_rest (cs : List Char) : Option (List Char × List Char) :=
  let (ws1, r1) := span_p is_space_char cs
  if ws1.isEmpty then none else
  let (mn, r2) := span_p is_cyr_i r1
  if mn.isEmpty then none else
  let (ws2, r3) := span_p is_space_char r2
  if ws2.isEmpty then none else
  let yc := r3.take 4
  if yc.length = 4 && yc.all Char.isDigit then some (mn, yc) else none

/-- Tries the full pattern at this position: greedy two-digit day first, then
the one-digit day, as `\d{1,2}` backtracks. -/
def match_path_at (cs : List Char) : Option (List Char × List Char × List Char) :=
  match cs with
  | c1 :: rest =>
    if c1.isDigit then
      match rest with
      | c2 :: rest2 =>
        if c2.isDigit then
          match match_path_rest rest2 with
          | some (mn, yc) => some ([c1, c2], mn, yc)
          | none =>
            match match_path_rest (c2 :: rest2) with
            | some (mn, yc) => some ([c1], mn, yc)
            | none => none
        else
          match match_path_rest (c2 :: rest2) with
          | some (mn, yc) => some ([c1], mn, yc)
          | none => none
      | [] => none
    else none
  | [] => none

/-- Performs `re.search` for the path pattern: first position (left to right) where
the pattern matches. -/
def search_path_aux : List Char → Option (List Char × List Char × List Char)
  | [] => none
  | c :: cs =>
    match match_path_at (c :: cs) with
    | some r => some r
    | none => search_path_aux cs

/-- Models `_extract_date_from_path`. -/
def extract_date_from_path (path : String) : Option PyDateTime :=
  if path = "" then none else
  match search_path_aux path.data with
  | none => none
  | some (dayCs, mn, yCs) =>
    match month_table.find? (fun pr => pr.1.isPrefixOf (mn.map lower_ru)) with
    | none => none
    | some pr =>
      let y := to_nat yCs
      let d := to_nat dayCs
      if valid_date y pr.2 d then some ⟨y, pr.2, d, 0, 0, 0⟩ else none

/-! ## Filename date extraction (`_extract_date_from_filename`)
Three fixed-shape patterns tried in order; `re.search` scans left to right
for the first position where the whole pattern (with its `\b` anchors)
matches.  Every pattern starts and ends with a digit, so the leading `\b`
holds exactly when the previous character is absent or not a word character,
and the trailing `\b` exactly when the following character is absent or not
a word character. -/

/-- One fixed-length token of a filename pattern: a captured digit run or a
literal character. -/
inductive Tok where
  | digits (n : Nat)
  | lit (c : Char)
deriving DecidableEq, Repr

/-- Pattern `\b(\d\x7b4\x7d)-(\d\x7b2\x7d)-(\d\x7b2\x7d)\b`. -/
def pat_ymd_dash : List Tok :=
  [.digits 4, .lit '-', .digits 2, .lit '-', .digits 2]

/-- Pattern `\b(\d\x7b4\x7d)(\d\x7b2\x7d)(\d\x7b2\x7d)\b`. -/
def pat_ymd8 : List Tok :=
  [.digits 4, .digits 2, .digits 2]

/-- Pattern `\b(\d\x7b2\x7d)\.(\d\x7b2\x7d)\.(\d\x7b4\x7d)\b`. -/
def pat_dmy_dot : List Tok :=
  [.digits 2, .lit '.', .digits 2, .lit '.', .digits 4]

/-- Matches the token sequence at the start of `cs`; returns the digit-run
captures and the remaining characters. -/
def match_toks : List Tok → List Char → Option (List (List Char) × List Char)
  | [], cs => some ([], cs)
  | .digits n :: ts, cs =>
    let g := cs.take n
    if g.length = n && g.all Char.isDigit then
      match match_toks ts (cs.drop n) with
      | some (gs, r) => some (g :: gs, r)
      | none => none
    else none
  | .lit c :: ts, d :: cs => if d = c then match_toks ts cs else none
  | .lit _ :: _, [] => none

/-- Performs `re.search` for one filename pattern: scans positions left to right,
checking the leading word boundary against the previous character and the
trailing word boundary against the first unconsumed character. -/
def search_pat_aux (p : List Tok) : Option Char → List Char → Option (List (List Char))
  | _, [] => none
  | prev, c :: cs =>
    let boundaryOk := match prev with
      | none => true
      | some pc => !(is_word_char pc)
    match (if boundaryOk then match_toks p (c :: cs) else none) with
    | some (gs, rest) =>
      let endOk := match rest with
        | [] => true
        | r :: _ => !(is_word_char r)
      if endOk then some gs else search_pat_aux p (some c) cs
    | none => search_pat_aux p (some c) cs

/-- Models `re.search(pattern, filename)`, returning the captures of the first
match. -/
def search_pat (p : List Tok) (cs : List Char) : Option (List (List Char)) :=
  search_pat_aux p none cs

/-- Performs `year, month, day = groups` when the first group has four digits, else
`day, month, year = groups` (always three groups for these patterns). -/
def assign_groups : List (List Char) → Option (Nat × Nat × Nat)
  | [a, b, c] =>
    if a.length = 4 then some (to_nat a, to_nat b, to_nat c)
    else some (to_nat c, to_nat b, to_nat a)
  | _ => none

/-- The body of the pattern loop in `_extract_date_from_filename`: a match
whose `datetime(...)` construction fails, or whose year falls outside
`[1990, current_year]`, makes the loop continue with the next pattern. -/
def pats_loop (cy : Nat) : List (List Tok) → List Char → Option PyDateTime
  | [], _ => none
  | p :: ps, cs =>
    match search_pat p cs with
    | none => pats_loop cy ps cs
    | some gs =>
      match assign_groups gs with
      | none => pats_loop cy ps cs
      | some (y, m, d) =>
        if valid_date y m d then
          if 1990 ≤ y && y ≤ cy then some ⟨y, m, d, 0, 0, 0⟩
          else pats_loop cy ps cs
        else pats_loop cy ps cs

/-- Models `_extract_date_from_filename`; `cy` is `datetime.now().year`. -/
def extract_date_from_filename (cy : Nat) (filename : String) : Option PyDateTime :=
  pats_loop cy [pat_ymd_dash, pat_ymd8, pat_dmy_dot] filename.data

/-- One pattern's contribution, as the spec describes it: the first text
match, validated (calendar validity and year range), or nothing. -/
def validated_match (cy : Nat) (p : List Tok) (cs : List Char) : Option PyDateTime :=
  match search_pat p cs with
  | none => none
  | some gs =>
    match assign_groups gs with
    | none => none
    | some (y, m, d) =>
      if valid_date y m d then
        if 1990 ≤ y && y ≤ cy then some ⟨y, m, d, 0, 0, 0⟩ else none
      else none

/-! ## `created` / `modified` parsing
`date_str = item[field].split('+')[0].split('.')[0].replace('Z', '')`
followed by `datetime.fromisoformat(date_str)`: a strict `YYYY-MM-DD` date,
optionally one separator character and `HH[:MM[:SS]]`, optionally a
`-HH:MM[:SS]` numeric offset (a `+` offset can no longer occur after the
stripping). -/

/-- Exactly two digit characters. -/
def parse2 : List Char → Option (Nat × List Char)
  | a :: b :: r =>
    if a.isDigit && b.isDigit then some (to_nat [a, b], r) else none
  | _ => none

/-- Exactly four digit characters. -/
def parse4 : List Char → Option (Nat × List Char)
  | a :: b :: c :: d :: r =>
    if a.isDigit && b.isDigit && c.isDigit && d.isDigit then
      some (to_nat [a, b, c, d], r)
    else none
  | _ => none

/-- The optional trailing numeric offset: empty, or `-HH:MM` or `-HH:MM:SS`
consuming the whole rest. -/
def parse_iso_tz : List Char → Bool
  | [] => true
  | '-' :: r =>
    match parse2 r with
    | some (th, ':' :: r1) =>
      match parse2 r1 with
      | some (tm, r2) =>
        if th ≤ 23 && tm ≤ 59 then
          match r2 with
          | [] => true
          | ':' :: r3 =>
            match parse2 r3 with
            | some (ts, []) => ts ≤ 59
            | _ => false
          | _ => false
        else false
      | none => false
    | _ => false
  | _ => false

/-- Parses `HH[:MM[:SS]]` plus the optional offset, consuming the whole rest. -/
def parse_iso_time : List Char → Option (Nat × Nat × Nat)
  | cs =>
    match parse2 cs with
    | none => none
    | some (hh, r1) =>
      let (mm, ss, rest) :=
        match r1 with
        | ':' :: r2 =>
          match parse2 r2 with
          | some (mv, r3) =>
            (match r3 with
             | ':' :: r4 =>
               match parse2 r4 with
               | some (sv, r5) => (mv, sv, some r5)
               | none => (0, 0, (none : Option (List Char)))
             | _ => (mv, 0, some r3))
          | none => (0, 0, (none : Option (List Char)))
        | _ => (0, 0, some r1)
      match rest with
      | none => none
      | some r =>
        if hh ≤ 23 && mm ≤ 59 && ss ≤ 59 && parse_iso_tz r then
          some (hh, mm, ss)
        else none

/-- Models `datetime.fromisoformat` on the stripped string. -/
def parse_iso (cs : List Char) : Option PyDateTime :=
  match parse4 cs with
  | some (y, '-' :: r1) =>
    match parse2 r1 with
    | some (m, '-' :: r2) =>
      match parse2 r2 with
      | some (d, rest) =>
        if valid_date y m d then
          match rest with
          | [] => some ⟨y, m, d, 0, 0, 0⟩
          | _sep :: r3 =>
            match parse_iso_time r3 with
            | some (hh, mm, ss) => some ⟨y, m, d, hh, mm, ss⟩
            | none => none
        else none
      | _ => none
    | _ => none
  | _ => none

/-- Models `s.split('+')[0].split('.')[0].replace('Z', '')`. -/
def strip_tail (s : String) : List Char :=
  ((s.data.takeWhile (fun c => c ≠ '+')).takeWhile (fun c => c ≠ '.')).filter
    (fun c => c ≠ 'Z')

/-- One iteration of the `created` / `modified` loop: the field must be
present and truthy (non-empty), then stripped and ISO-parsed. -/
def try_field (o : Option String) : Option PyDateTime :=
  match o with
  | some s => if s = "" then none else parse_iso (strip_tail s)
  | none => none

/-! ## `_extract_date`: the strategy chain -/

/-- Strategies 2-4 of `_extract_date` (path, filename, created, modified). -/
def extract_date_rest (cy : Nat) (it : Item) : Option PyDateTime :=
  match extract_date_from_path it.path with
  | some d => some d
  | none =>
    match extract_date_from_filename cy it.name with
    | some d => some d
    | none =>
      match try_field it.created with
      | some d => some d
      | none => try_field it.modified

/-- Models `_extract_date`: EXIF first (present and truthy, parse failure falls
through), then path, filename, `created`, `modified`. -/
def extract_date (cy : Nat) (it : Item) : Option PyDateTime :=
  match it.exifDateTime with
  | some s =>
    if s = "" then extract_date_rest cy it
    else
      match parse_exif s with
      | some d => some d
      | none => extract_date_rest cy it
  | none => extract_date_rest cy it

/-! ## `find_photos_by_date` (one account)
The three listing sources (`/resources/files` image search, the
`/Фотокамера` folder, `/photounlim`) are modelled by the item lists a fully
successful pagination would have yielded; per item the processing is the
common loop body of the three `_search_*` methods.  The combined list is
deduplicated with `list({p['path']: p for p in photos}.values())` — a dict
keyed by path, keeping each key at its first-insertion position with its
last-assigned value — and sorted ascending by year (Python's stable sort). -/

/-- ASCII lowercasing, the part of `.lower()` that can affect the ASCII
extension suffixes below. -/
def ascii_lower (c : Char) : Char :=
  if 'A' ≤ c && c ≤ 'Z' then Char.ofNat (c.toNat + 32) else c

/-- The video-extension skip: `name.lower().endswith((...))` (the suffixes
are ASCII, so ASCII lowercasing decides the test). -/
def is_video_name (name : String) : Bool :=
  let l := name.data.map ascii_lower
  [".mp4", ".avi", ".mov", ".mkv", ".webm", ".flv"].any
    (fun s => s.data.isSuffixOf l)

/-- The common per-item loop body: optional `type == 'file'` filter (folder
listings only), video skip, date resolution, day/month match, and the
download-URL requirement (`item.get('file')` must be truthy). -/
def process_item (cy day month : Nat) (checkType : Bool) (it : Item) :
    Option Photo :=
  if checkType && it.type ≠ "file" then none
  else if is_video_name it.name then none
  else
    match extract_date cy it with
    | none => none
    | some d =>
      if d.day = day && d.month = month then
        match it.file with
        | none => none
        | some u =>
          if u = "" then none
          else some ⟨it.name, it.path, u, it.created, it.modified, d, d.year,
                     it.size, none⟩
      else none

/-- Models `_search_in_files_api` over the records the flat search returned. -/
def search_files (cy day month : Nat) (items : List Item) : List Photo :=
  items.filterMap (process_item cy day month false)

/-- Models `_search_in_folder` and `_search_in_photounlim` over a folder's records. -/
def search_folder (cy day month : Nat) (items : List Item) : List Photo :=
  items.filterMap (process_item cy day month true)

/-- Inserting one photo into the path-keyed dict: an existing key keeps its
position but its value is overwritten; a new key is appended. -/
def dict_insert (d : List Photo) (p : Photo) : List Photo :=
  if d.any (fun q => q.path = p.path) then
    d.map (fun q => if q.path = p.path then p else q)
  else d ++ [p]

/-- Models the dict comprehension over paths (values listed in key order) as an ordered association
list. -/
def path_dict (l : List Photo) : List Photo :=
  l.foldl dict_insert []

/-- Models `photos.sort(key=lambda x: x['year'])`: a stable ascending sort by year
(insertion before strictly larger years only, preserving ties). -/
def sort_by_year (l : List Photo) : List Photo :=
  List.insertionSort (fun a b => a.year ≤ b.year) l

/-- Models `find_photos_by_date(day, month)` against fixed listing results `a`
(flat search), `b` (`/Фотокамера`), `c` (`/photounlim`); out-of-range
arguments raise `ValueError`. -/
def find_photos_by_date (cy day month : Nat) (a b c : List Item) :
    Except String (List Photo) :=
  if !(1 ≤ day && day ≤ 31) then .error "day out of range"
  else if !(1 ≤ month && month ≤ 12) then .error "month out of range"
  else
    .ok (sort_by_year (path_dict
      (search_files cy day month a ++ search_folder cy day month b ++
        search_folder cy day month c)))

/-! ## The two-account merge (main.py lines 56-90) -/

/-- Models the `photo['source'] = ...` tagging applied to a whole result list. -/
def tag_source (s : Source) (ps : List Photo) : List Photo :=
  ps.map (fun p => { p with source := some s })

/-- The `seen_names` loop: keep only the first occurrence of each name. -/
def dedup_by_name_first : List Photo → List String → List Photo
  | [], _ => []
  | p :: ps, seen =>
    if p.name ∈ seen then dedup_by_name_first ps seen
    else p :: dedup_by_name_first ps (p.name :: seen)

/-- Lines 56-90 of `main`: tag both result sets, and when the second set is
non-empty concatenate, deduplicate by name (first seen wins), and re-sort by
year. -/
def merge_photos (p1 p2 : List Photo) : List Photo :=
  if (tag_source .disk2 p2).isEmpty then tag_source .disk1 p1
  else
    sort_by_year (dedup_by_name_first
      (tag_source .disk1 p1 ++ tag_source .disk2 p2) [])

/-! ## Yearly selection (main.py lines 106-156) -/

/-- The keys of an insertion-ordered dict built over a list (first
occurrence keeps the position). -/
def first_keys_nat : List Nat → List Nat
  | [] => []
  | y :: ys => y :: (first_keys_nat ys).filter (fun z => z ≠ y)

/-- The `photos_by_year` dict keys in insertion order. -/
def photos_by_year_keys (ps : List Photo) : List Nat :=
  first_keys_nat (ps.map (fun p => p.year))

/-- Models `sorted(photos_by_year.keys())`. -/
def sorted_years (ps : List Photo) : List Nat :=
  List.insertionSort (fun a b => a ≤ b) (photos_by_year_keys ps)

/-- The adaptive per-year quota (lines 116-122). -/
def photos_per_year (ps : List Photo) : Nat :=
  let yearsCount := (photos_by_year_keys ps).length
  if yearsCount ≤ 4 then 3
  else if yearsCount ≤ 6 then 2
  else 1

/-- Models `photos_by_year[year]`: the year's photos in list order. -/
def year_group (ps : List Photo) (y : Nat) : List Photo :=
  ps.filter (fun p => p.year = y)

/-- The photos of one source within a year slice. -/
def source_bucket (s : Source) (g : List Photo) : List Photo :=
  g.filter (fun p => p.source = some s)

/-- The `for i in range(photos_per_year)` loop: even loop indices prefer
disk 1, odd ones disk 2, each falling back to the other bucket when its
preferred one is exhausted. -/
def pick_loop : Nat → Nat → List Photo → List Photo → List Photo
  | 0, _, _, _ => []
  | k + 1, i, d1, d2 =>
    if i % 2 = 0 then
      match d1 with
      | x :: xs => x :: pick_loop k (i + 1) xs d2
      | [] =>
        match d2 with
        | y :: ys => y :: pick_loop k (i + 1) [] ys
        | [] => pick_loop k (i + 1) [] []
    else
      match d2 with
      | y :: ys => y :: pick_loop k (i + 1) d1 ys
      | [] =>
        match d1 with
        | x :: xs => x :: pick_loop k (i + 1) xs []
        | [] => pick_loop k (i + 1) [] []

/-- The `selected_from_year` list for one year slice. -/
def select_from_year (g : List Photo) (quota : Nat) : List Photo :=
  pick_loop quota 0 (source_bucket .disk1 g) (source_bucket .disk2 g)

/-- The outer year loop: accumulate per-year selections over ascending
years, truncating to 12 and stopping as soon as the total reaches 12. -/
def select_years_loop (ps : List Photo) (quota : Nat) :
    List Nat → List Photo → List Photo
  | [], acc => acc
  | y :: ys, acc =>
    let acc2 := acc ++ select_from_year (year_group ps y) quota
    if 12 ≤ acc2.length then acc2.take 12
    else select_years_loop ps quota ys acc2

/-- Lines 106-156 of `main`: the full yearly selection. -/
def select_photos (ps : List Photo) : List Photo :=
  select_years_loop ps (photos_per_year ps) (sorted_years ps) []

/-- The interleaving the spec describes: strictly alternating, starting with
the primary source, falling back to the other source's remaining items when
one bucket is exhausted, until `quota` items are chosen or both are
exhausted.  The flag is `true` when it is the primary source's turn. -/
def spec_alternate : Bool → List Photo → List Photo → Nat → List Photo
  | _, _, _, 0 => []
  | true, x :: xs, d2, q + 1 => x :: spec_alternate false xs d2 q
  | true, [], d2, q + 1 => d2.take (q + 1)
  | false, d1, y :: ys, q + 1 => y :: spec_alternate true d1 ys q
  | false, d1, [], q + 1 => d1.take (q + 1)

/-! ## Telegram publisher (telegram_publisher.py)
The HTTP exchange is modelled by the response each attempt would receive.
`send_message` and `_send_media_group` recognise a 429 response: they read
`parameters.retry_after` (default 5 when the parsed body lacks it), sleep
`retry_after + 1`, and retry exactly once, any failure of the retry being
returned as `False`.  `_send_single_photo` has no 429 handling: every
request exception, 429 included, is reported as `False` immediately.
`MAX_CAPTION_LENGTH = 1024` is declared in the source but never applied:
captions are sent exactly as built. -/

/-- What one HTTP POST to the Telegram API comes back with.  `rateLimited`
is a 429 whose JSON body parses, carrying `parameters.retry_after` when
present; `rateLimitedBadBody` is a 429 whose body cannot be parsed (the
retry block's exception handler then returns `False` without retrying). -/
inductive Resp where
  | success
  | rateLimited (retryAfter : Option Nat)
  | rateLimitedBadBody
  | httpError (code : Nat)
  | timeout
  | connError
deriving DecidableEq, Repr

/-- The observable outcome of one send operation: the returned boolean, how
many HTTP attempts were made, and the rate-limit sleeps performed (in
seconds). -/
structure SendRun where
  ok : Bool
  attempts : Nat
  sleeps : List Nat
deriving DecidableEq, Repr

/-- The `MAX_CAPTION_LENGTH` constant as declared in the source. -/
def MAX_CAPTION_LENGTH : Nat := 1024

/-- Models `send_message`: `r1` is the first attempt's response, `r2` the retry's
(consulted only when a retry happens). -/
def send_message (r1 r2 : Resp) : SendRun :=
  match r1 with
  | .success => ⟨true, 1, []⟩
  | .rateLimited ra =>
    let w := ra.getD 5 + 1
    match r2 with
    | .success => ⟨true, 2, [w]⟩
    | _ => ⟨false, 2, [w]⟩
  | .rateLimitedBadBody => ⟨false, 1, []⟩
  | .httpError _ => ⟨false, 1, []⟩
  | .timeout => ⟨false, 1, []⟩
  | .connError => ⟨false, 1, []⟩

/-- The caption built in `_send_single_photo`:
`f"{year} год" if year else ""`. -/
def single_photo_caption (p : Photo) : String :=
  if p.year ≠ 0 then toString p.year ++ " год" else ""

/-- The `data` payload of `_send_single_photo` (photo URL and caption), or
`none` when the photo lacks a truthy download URL and the method returns
`False` before any request. -/
def send_single_photo_payload (p : Photo) : Option (String × String) :=
  if p.download_url = "" then none
  else some (p.download_url, single_photo_caption p)

/-- Models `_send_single_photo`: no 429 handling — any `HTTPError` (429 included),
timeout or connection error falls into a generic handler returning
`False`. -/
def send_single_photo (p : Photo) (r1 : Resp) : SendRun :=
  match send_single_photo_payload p with
  | none => ⟨false, 0, []⟩
  | some _ =>
    match r1 with
    | .success => ⟨true, 1, []⟩
    | _ => ⟨false, 1, []⟩

/-- The per-item caption built in `_send_media_group`:
`str(year) if include_years and year else ""`. -/
def media_item_caption (includeYears : Bool) (p : Photo) : String :=
  if includeYears && p.year ≠ 0 then toString p.year else ""

/-- The media entries of `_send_media_group`: photos without a truthy URL
are skipped. -/
def media_entries (includeYears : Bool) (ps : List Photo) :
    List (String × String) :=
  (ps.filter (fun p => p.download_url ≠ "")).map
    (fun p => (p.download_url, media_item_caption includeYears p))

/-- Models `_send_media_group`: fails without a request when no entry has a URL;
otherwise the same 429-retry structure as `send_message`. -/
def send_media_group (ps : List Photo) (r1 r2 : Resp) : SendRun :=
  if (media_entries true ps).isEmpty then ⟨false, 0, []⟩
  else
    match r1 with
    | .success => ⟨true, 1, []⟩
    | .rateLimited ra =>
      let w := ra.getD 5 + 1
      match r2 with
      | .success => ⟨true, 2, [w]⟩
      | _ => ⟨false, 2, [w]⟩
    | .rateLimitedBadBody => ⟨false, 1, []⟩
    | .httpError _ => ⟨false, 1, []⟩
    | .timeout => ⟨false, 1, []⟩
    | .connError => ⟨false, 1, []⟩

/-! ## Properties of the date resolver -/

/-- An empty EXIF string never parses. -/
theorem parse_exif_empty : parse_exif "" = none := rfl

/-- C3.  For every `FileRecord` whose EXIF `date_time` field parses in the
`'YYYY:MM:DD HH:MM:SS'` format, the date resolver returns exactly that
date, regardless of what the path, filename, `created` or `modified`
fields contain. -/
theorem c3_exif_priority (cy : Nat) (it : Item) (s : String) (d : PyDateTime)
    (h1 : it.exifDateTime = some s) (h2 : parse_exif s = some d) :
    extract_date cy it = some d := by
  unfold extract_date
  rw [h1]
  by_cases hs : s = ""
  · rw [hs] at h2
    rw [parse_exif_empty] at h2
    exact absurd h2 (by simp)
  · simp only [hs, if_false, h2]

/-- Witness for C3: a record whose EXIF timestamp names 2020-06-15 while
its path says 14 May 2019, its filename says 2018-03-03, and `created`
says 2017-01-01; the resolver follows the EXIF field. -/
def c3_item : Item :=
  { name := "2018-03-03.jpg", path := "/14 мая 2019/2018-03-03.jpg",
    file := some "http://u1", created := some "2017-01-01T10:00:00+03:00",
    modified := none, exifDateTime := some "2020:06:15 09:30:00",
    size := 5, type := "file" }

/-- Witness: `c3_exif_priority` applied at `c3_item`. -/
theorem c3_exif_priority_witness :
    extract_date 2025 c3_item = some ⟨2020, 6, 15, 9, 30, 0⟩ :=
  c3_exif_priority 2025 c3_item "2020:06:15 09:30:00" ⟨2020, 6, 15, 9, 30, 0⟩
    rfl rfl

/-! ## Properties of the filename strategy (C2) -/

/-- One step of the pattern loop: the head pattern's validated match if it
produces one, otherwise the loop over the remaining patterns. -/
theorem pats_loop_cons (cy : Nat) (p : List Tok) (ps : List (List Tok))
    (cs : List Char) :
    pats_loop cy (p :: ps) cs =
      match validated_match cy p cs with
      | some d => some d
      | none => pats_loop cy ps cs := by
  simp only [pats_loop, validated_match]
  cases hsp : search_pat p cs with
  | none => rfl
  | some gs =>
    cases hag : assign_groups gs with
    | none => simp [hag]
    | some t =>
      obtain ⟨y, m, d⟩ := t
      by_cases hv : valid_date y m d = true
      · by_cases hr : 1990 ≤ y ∧ y ≤ cy
        · simp [hag, hv, hr]
        · simp [hag, hv, hr]
      · simp [hag, hv]

/-- The pattern loop tries the remaining patterns whenever a match fails
validation: it equals the first-success scan of per-pattern validated
matches. -/
theorem pats_loop_eq_findSome (cy : Nat) (ps : List (List Tok)) (cs : List Char) :
    pats_loop cy ps cs = ps.findSome? (fun p => validated_match cy p cs) := by
  induction ps with
  | nil => rfl
  | cons p ps ih =>
    rw [List.findSome?_cons, pats_loop_cons, ih]
    cases validated_match cy p cs <;> rfl

/-- The filename used to refute C2 as stated: the first pattern matches
the text `2024-13-45` (an invalid calendar date), and the third pattern
then matches `15.06.2015`, which is valid and in range. -/
def c2_file : String := "2024-13-45 15.06.2015.jpg"

/-- Counterexample to C2 as stated.  On `c2_file` the first pattern matches
text (`2024-13-45`) and that match fails validation (month 13), yet the
strategy does not return no-result: it goes on to the third pattern and
returns 2015-06-15. -/
theorem c2_counterexample :
    search_pat pat_ymd_dash c2_file.data =
      some [['2', '0', '2', '4'], ['1', '3'], ['4', '5']]
    ∧ assign_groups [['2', '0', '2', '4'], ['1', '3'], ['4', '5']] =
        some (2024, 13, 45)
    ∧ valid_date 2024 13 45 = false
    ∧ extract_date_from_filename 2025 c2_file = some ⟨2015, 6, 15, 0, 0, 0⟩ :=
  ⟨rfl, rfl, rfl, rfl⟩

/-- C2 amended.  When a pattern matches text but the matched date fails
validation (invalid calendar date, or year outside `[1990, current_year]`),
that match is discarded and the next pattern is tried; the strategy
returns no result only when none of the three patterns produces a valid
in-range date. -/
theorem c2_amended (cy : Nat) (f : String) :
    extract_date_from_filename cy f =
      [pat_ymd_dash, pat_ymd8, pat_dmy_dot].findSome?
        (fun p => validated_match cy p f.data) :=
  pats_loop_eq_findSome cy _ _

/-! ## Properties of the path-keyed dedup (C6, C10) -/

/-- Membership after one dict insertion: the inserted photo itself, or an
old photo whose path differs from the inserted one's. -/
theorem mem_dict_insert {d : List Photo} {x q : Photo} (h : q ∈ dict_insert d x) :
    q = x ∨ (q ∈ d ∧ q.path ≠ x.path) := by
  unfold dict_insert at h
  by_cases ha : (d.any (fun r => r.path = x.path)) = true
  · rw [if_pos ha] at h
    obtain ⟨r, hr, hrq⟩ := List.mem_map.mp h
    by_cases hp : r.path = x.path
    · left
      rw [← hrq, if_pos hp]
    · right
      rw [← hrq, if_neg hp]
      exact ⟨hr, hp⟩
  · rw [if_neg ha] at h
    rcases List.mem_append.mp h with hq | hq
    · right
      refine ⟨hq, fun hpq => ha ?_⟩
      exact List.any_eq_true.mpr ⟨q, hq, by simp [hpq]⟩
    · left
      simpa using hq

/-- Every member of the dict built over `l` (from any start `d`) is the last
occurrence of its path in `l`, unless its path never occurs in `l` and it
was already in `d`. -/
theorem path_dict_loop_getLast (l : List Photo) :
    ∀ (d : List Photo) (q : Photo), q ∈ l.foldl dict_insert d →
      (l.filter (fun r => r.path = q.path)).getLast? = some q
        ∨ (l.filter (fun r => r.path = q.path) = [] ∧ q ∈ d) := by
  induction l with
  | nil =>
    intro d q h
    right
    exact ⟨rfl, h⟩
  | cons x xs ih =>
    intro d q h
    rw [List.foldl_cons] at h
    rcases ih (dict_insert d x) q h with hL | ⟨hfe, hqd⟩
    · left
      by_cases hx : x.path = q.path
      · rw [List.filter_cons_of_pos (by simp [hx])]
        cases ht : xs.filter (fun r => r.path = q.path) with
        | nil => rw [ht] at hL; simp at hL
        | cons a t =>
          rw [ht] at hL
          rw [List.getLast?_cons_cons]
          exact hL
      · rw [List.filter_cons_of_neg (by simp [hx])]
        exact hL
    · rcases mem_dict_insert hqd with rfl | ⟨hqd', hpne⟩
      · left
        rw [List.filter_cons_of_pos (by simp), hfe]
        rfl
      · right
        have hfx : List.filter (fun r => decide (r.path = q.path)) (x :: xs)
            = List.filter (fun r => decide (r.path = q.path)) xs := by
          rw [List.filter_cons, if_neg]
          simp only [decide_eq_true_eq]
          exact fun hh => hpne hh.symm
        rw [hfx]
        exact ⟨hfe, hqd'⟩

/-- Every photo the path dict keeps is the last occurrence of its path in
the input list. -/
theorem path_dict_getLast {l : List Photo} {q : Photo} (h : q ∈ path_dict l) :
    (l.filter (fun r => r.path = q.path)).getLast? = some q := by
  rcases path_dict_loop_getLast l [] q h with hL | ⟨_, hq⟩
  · exact hL
  · simp at hq

/-- One dict insertion preserves distinctness of the stored paths. -/
theorem nodup_paths_dict_insert {d : List Photo} {x : Photo}
    (h : (d.map (fun r => r.path)).Nodup) :
    ((dict_insert d x).map (fun r => r.path)).Nodup := by
  unfold dict_insert
  by_cases ha : (d.any (fun r => r.path = x.path)) = true
  · rw [if_pos ha, List.map_map]
    have heq : ∀ r ∈ d,
        ((fun r => r.path) ∘ fun r => if r.path = x.path then x else r) r =
          r.path := by
      intro r _
      by_cases hp : r.path = x.path
      · simp [hp]
      · simp [hp]
    rw [List.map_congr_left heq]
    exact h
  · rw [if_neg ha, List.map_append]
    have hnx : x.path ∉ d.map (fun r => r.path) := by
      intro hmem
      obtain ⟨r, hr, hrp⟩ := List.mem_map.mp hmem
      exact ha (List.any_eq_true.mpr ⟨r, hr, by simp [hrp]⟩)
    simp [List.nodup_append, h, hnx]

/-- The path dict stores pairwise-distinct paths. -/
theorem path_dict_nodup (l : List Photo) :
    ((path_dict l).map (fun r => r.path)).Nodup := by
  unfold path_dict
  suffices h : ∀ d, (d.map (fun r => r.path)).Nodup →
      ((l.foldl dict_insert d).map (fun r => r.path)).Nodup from h [] (by simp)
  induction l with
  | nil =>
    intro d hd
    simpa using hd
  | cons x xs ih =>
    intro d hd
    rw [List.foldl_cons]
    exact ih _ (nodup_paths_dict_insert hd)

/-- The concatenation of the three listing sources, as processed by
`find_photos_by_date` before dedup and sort. -/
def combined_search (cy day month : Nat) (a b c : List Item) : List Photo :=
  search_files cy day month a ++ search_folder cy day month b ++
    search_folder cy day month c

/-- C6.  Against a fixed collection of records from one account's listing
sources, a successful `find_photos_by_date` never returns two matches with
the same path, and running it twice on the same records yields identical
output. -/
theorem c6_find_nodup_paths (cy day month : Nat) (a b c : List Item)
    (res : List Photo)
    (h : find_photos_by_date cy day month a b c = .ok res) :
    (res.map (fun p => p.path)).Nodup
    ∧ find_photos_by_date cy day month a b c =
        find_photos_by_date cy day month a b c := by
  refine ⟨?_, rfl⟩
  unfold find_photos_by_date at h
  split at h
  · simp at h
  · split at h
    · simp at h
    · injection h with h
      subst h
      have hperm :
          List.Perm
            ((sort_by_year (path_dict (search_files cy day month a ++
              search_folder cy day month b ++
              search_folder cy day month c))).map (fun p => p.path))
            ((path_dict (search_files cy day month a ++
              search_folder cy day month b ++
              search_folder cy day month c)).map (fun p => p.path)) :=
        (List.perm_insertionSort _ _).map _
      exact hperm.nodup_iff.mpr (path_dict_nodup _)

/-- Decidable equality of `find_photos_by_date` results, used to evaluate
the witnesses. -/
instance : DecidableEq (Except String (List Photo)) := fun a b =>
  match a, b with
  | .ok x, .ok y =>
    if h : x = y then .isTrue (by rw [h]) else .isFalse (by simp [h])
  | .error x, .error y =>
    if h : x = y then .isTrue (by rw [h]) else .isFalse (by simp [h])
  | .ok _, .error _ => .isFalse (by simp)
  | .error _, .ok _ => .isFalse (by simp)

/-- Fixture for the C6 witness: two files with distinct paths and EXIF
dates on 15 June of different years. -/
def c6_itemA : Item :=
  { name := "a.jpg", path := "/d/a.jpg", file := some "http://a",
    created := none, modified := none,
    exifDateTime := some "2019:06:15 08:00:00", size := 1, type := "file" }

/-- Second fixture record for the C6 witness. -/
def c6_itemB : Item :=
  { name := "b.jpg", path := "/d/b.jpg", file := some "http://b",
    created := none, modified := none,
    exifDateTime := some "2021:06:15 08:00:00", size := 2, type := "file" }

/-- The photo `find_photos_by_date` builds from `c6_itemA`. -/
def c6_photoA : Photo :=
  { name := "a.jpg", path := "/d/a.jpg", download_url := "http://a",
    created := none, modified := none, date := ⟨2019, 6, 15, 8, 0, 0⟩,
    year := 2019, size := 1, source := none }

/-- The photo `find_photos_by_date` builds from `c6_itemB`. -/
def c6_photoB : Photo :=
  { name := "b.jpg", path := "/d/b.jpg", download_url := "http://b",
    created := none, modified := none, date := ⟨2021, 6, 15, 8, 0, 0⟩,
    year := 2021, size := 2, source := none }

/-- Witness for C6 at a concrete fixture. -/
theorem c6_find_nodup_paths_witness :
    (([c6_photoA, c6_photoB] : List Photo).map (fun p => p.path)).Nodup
    ∧ find_photos_by_date 2025 15 6 [c6_itemA] [c6_itemB] [] =
        find_photos_by_date 2025 15 6 [c6_itemA] [c6_itemB] [] :=
  c6_find_nodup_paths 2025 15 6 [c6_itemA] [c6_itemB] [] [c6_photoA, c6_photoB]
    rfl

/-- C10.  Within one account, when listing sources return records with the
same path, the dedup keeps the copy from the later-scanned source: every
returned photo is the last occurrence of its path in the concatenated
source results. -/
theorem c10_dedup_keeps_last (cy day month : Nat) (a b c : List Item)
    (res : List Photo)
    (h : find_photos_by_date cy day month a b c = .ok res)
    (q : Photo) (hq : q ∈ res) :
    ((combined_search cy day month a b c).filter
      (fun r => r.path = q.path)).getLast? = some q := by
  unfold find_photos_by_date at h
  split at h
  · simp at h
  · split at h
    · simp at h
    · injection h with h
      subst h
      have hmem : q ∈ path_dict (combined_search cy day month a b c) :=
        ((List.perm_insertionSort _ _).mem_iff).mp hq
      exact path_dict_getLast hmem

/-- Fixture for the C10 witness: the same path `/d/x.jpg` is returned both
by the flat search (as 2019) and by the folder listing (as 2021); the
folder copy is scanned later. -/
def c10_itemA : Item :=
  { name := "x-old.jpg", path := "/d/x.jpg", file := some "http://old",
    created := none, modified := none,
    exifDateTime := some "2019:06:15 08:00:00", size := 1, type := "file" }

/-- The later-scanned copy of the same path for the C10 witness. -/
def c10_itemB : Item :=
  { name := "x-new.jpg", path := "/d/x.jpg", file := some "http://new",
    created := none, modified := none,
    exifDateTime := some "2021:06:15 08:00:00", size := 2, type := "file" }

/-- The photo built from `c10_itemB`, the copy that the dedup keeps. -/
def c10_photoB : Photo :=
  { name := "x-new.jpg", path := "/d/x.jpg", download_url := "http://new",
    created := none, modified := none, date := ⟨2021, 6, 15, 8, 0, 0⟩,
    year := 2021, size := 2, source := none }

/-- Witness for C10: with a duplicate path across two sources, the kept
photo is the later-scanned copy (`c10_photoB`), which is the last
occurrence of that path in the concatenated source results. -/
theorem c10_dedup_keeps_last_witness :
    ((combined_search 2025 15 6 [c10_itemA] [c10_itemB] []).filter
      (fun r => r.path = c10_photoB.path)).getLast? = some c10_photoB :=
  c10_dedup_keeps_last 2025 15 6 [c10_itemA] [c10_itemB] [] [c10_photoB]
    rfl c10_photoB (by simp)

/-! ## Sortedness of the year sort -/

instance : IsTotal Photo (fun a b => a.year ≤ b.year) :=
  ⟨fun a b => Nat.le_total a.year b.year⟩

instance : IsTrans Photo (fun a b => a.year ≤ b.year) :=
  ⟨fun _ _ _ hab hbc => Nat.le_trans hab hbc⟩

/-- The year sort produces a list whose years are ascending. -/
theorem sorted_map_year (l : List Photo) :
    List.Sorted (fun a b => a ≤ b) ((sort_by_year l).map (fun p => p.year)) := by
  have h := List.sorted_insertionSort (fun a b => a.year ≤ b.year) l
  exact List.pairwise_map.mpr h

/-! ## Properties of the name-keyed merge dedup (C7) -/

/-- Every photo the `seen_names` loop keeps is the first occurrence of its
name in the input, and its name was not previously seen. -/
theorem dedup_by_name_mem {l : List Photo} {seen : List String} {q : Photo}
    (h : q ∈ dedup_by_name_first l seen) :
    l.find? (fun r => r.name = q.name) = some q ∧ q.name ∉ seen := by
  induction l generalizing seen with
  | nil => simp [dedup_by_name_first] at h
  | cons p ps ih =>
    simp only [dedup_by_name_first] at h
    by_cases hp : p.name ∈ seen
    · rw [if_pos hp] at h
      obtain ⟨hfind, hns⟩ := ih h
      have hne : ¬(p.name = q.name) := fun he => hns (he ▸ hp)
      exact ⟨by rw [List.find?_cons_of_neg _ (by simp [hne])]; exact hfind, hns⟩
    · rw [if_neg hp] at h
      rcases List.mem_cons.mp h with rfl | h2
      · exact ⟨by rw [List.find?_cons_of_pos _ (by simp)], hp⟩
      · obtain ⟨hfind, hns⟩ := ih h2
        have hq_ne : ¬(p.name = q.name) := by
          intro he
          exact hns (by rw [← he]; exact List.mem_cons_self _ _)
        refine ⟨?_, fun hqs => hns (List.mem_cons_of_mem _ hqs)⟩
        rw [List.find?_cons_of_neg _ (by simp [hq_ne])]
        exact hfind

/-- The `seen_names` loop keeps pairwise-distinct names. -/
theorem dedup_by_name_nodup (l : List Photo) (seen : List String) :
    ((dedup_by_name_first l seen).map (fun p => p.name)).Nodup := by
  induction l generalizing seen with
  | nil => simp [dedup_by_name_first]
  | cons p ps ih =>
    simp only [dedup_by_name_first]
    by_cases hp : p.name ∈ seen
    · rw [if_pos hp]
      exact ih seen
    · rw [if_neg hp, List.map_cons, List.nodup_cons]
      refine ⟨?_, ih _⟩
      intro hmem
      obtain ⟨r, hr, hrn⟩ := List.mem_map.mp hmem
      exact (dedup_by_name_mem hr).2 (by rw [hrn]; exact List.mem_cons_self _ _)

/-- Tagged photos carry their tag. -/
theorem tag_source_mem {s : Source} {ps : List Photo} {q : Photo}
    (h : q ∈ tag_source s ps) : q.source = some s := by
  obtain ⟨r, _, hrq⟩ := List.mem_map.mp h
  rw [← hrq]

/-- Tagging does not change the name sequence. -/
theorem tag_source_names (s : Source) (ps : List Photo) :
    (tag_source s ps).map (fun p => p.name) = ps.map (fun p => p.name) := by
  unfold tag_source
  rw [List.map_map]
  rfl

/-- C7.  With a non-empty secondary result set, the merge deduplicates by
file name keeping only the first-encountered copy (so primary-account
records take precedence), and the merged set is re-sorted ascending by
year. -/
theorem c7_merge_dedup_by_name (p1 p2 : List Photo) (h : p2 ≠ []) :
    (∀ q ∈ merge_photos p1 p2,
      (tag_source .disk1 p1 ++ tag_source .disk2 p2).find?
        (fun r => r.name = q.name) = some q)
    ∧ ((merge_photos p1 p2).map (fun p => p.name)).Nodup
    ∧ List.Sorted (fun a b => a ≤ b)
        ((merge_photos p1 p2).map (fun p => p.year))
    ∧ (∀ q ∈ merge_photos p1 p2, q.name ∈ p1.map (fun p => p.name) →
        q.source = some .disk1) := by
  have ht2 : ¬((tag_source .disk2 p2).isEmpty = true) := by
    cases p2 with
    | nil => exact absurd rfl h
    | cons x xs => simp [tag_source]
  have hmerge : merge_photos p1 p2 =
      sort_by_year (dedup_by_name_first
        (tag_source .disk1 p1 ++ tag_source .disk2 p2) []) := by
    unfold merge_photos
    rw [if_neg ht2]
  have hfirst : ∀ q ∈ merge_photos p1 p2,
      (tag_source .disk1 p1 ++ tag_source .disk2 p2).find?
        (fun r => r.name = q.name) = some q := by
    intro q hq
    rw [hmerge] at hq
    have hq2 : q ∈ dedup_by_name_first
        (tag_source .disk1 p1 ++ tag_source .disk2 p2) [] :=
      (List.perm_insertionSort _ _).mem_iff.mp hq
    exact (dedup_by_name_mem hq2).1
  refine ⟨hfirst, ?_, ?_, ?_⟩
  · rw [hmerge]
    exact (((List.perm_insertionSort _ _).map _).nodup_iff).mpr
      (dedup_by_name_nodup _ _)
  · rw [hmerge]
    exact sorted_map_year _
  · intro q hq hnm
    have hfind := hfirst q hq
    rw [List.find?_append] at hfind
    have hex : ∃ x ∈ tag_source .disk1 p1, x.name = q.name := by
      rw [← tag_source_names Source.disk1 p1] at hnm
      obtain ⟨x, hx, hxn⟩ := List.mem_map.mp hnm
      exact ⟨x, hx, hxn⟩
    have hsome : ((tag_source .disk1 p1).find?
        (fun r => r.name = q.name)).isSome := by
      rw [List.find?_isSome]
      obtain ⟨x, hx, hxn⟩ := hex
      exact ⟨x, hx, by simp [hxn]⟩
    cases hfx : (tag_source .disk1 p1).find? (fun r => r.name = q.name) with
    | none => rw [hfx] at hsome; simp at hsome
    | some y =>
      rw [hfx] at hfind
      simp only [Option.or_some] at hfind
      injection hfind with hyq
      subst hyq
      exact tag_source_mem (List.mem_of_find?_eq_some hfx)

/-- A small photo fixture used by the witnesses. -/
def fix_photo (nm pth : String) (y : Nat) : Photo :=
  { name := nm, path := pth, download_url := "http://u", created := none,
    modified := none, date := ⟨y, 6, 15, 0, 0, 0⟩, year := y, size := 0,
    source := none }

/-- Primary result set for the C7 witness (contains `x.jpg`). -/
def c7_p1 : List Photo :=
  [fix_photo "x.jpg" "/1/x.jpg" 2020, fix_photo "y.jpg" "/1/y.jpg" 2019]

/-- Secondary result set for the C7 witness (also contains `x.jpg`). -/
def c7_p2 : List Photo :=
  [fix_photo "x.jpg" "/2/x.jpg" 2021, fix_photo "z.jpg" "/2/z.jpg" 2018]

/-- Witness for C7 at a fixture with a cross-account name collision. -/
theorem c7_merge_dedup_by_name_witness :
    (∀ q ∈ merge_photos c7_p1 c7_p2,
      (tag_source .disk1 c7_p1 ++ tag_source .disk2 c7_p2).find?
        (fun r => r.name = q.name) = some q)
    ∧ ((merge_photos c7_p1 c7_p2).map (fun p => p.name)).Nodup
    ∧ List.Sorted (fun a b => a ≤ b)
        ((merge_photos c7_p1 c7_p2).map (fun p => p.year))
    ∧ (∀ q ∈ merge_photos c7_p1 c7_p2, q.name ∈ c7_p1.map (fun p => p.name) →
        q.source = some .disk1) :=
  c7_merge_dedup_by_name c7_p1 c7_p2 (by decide)

/-! ## Properties of the quota table (C4) -/

/-- Membership in the insertion-ordered key list is membership in the
original list. -/
theorem first_keys_nat_mem (l : List Nat) (a : Nat) :
    a ∈ first_keys_nat l ↔ a ∈ l := by
  induction l with
  | nil => simp [first_keys_nat]
  | cons y ys ih =>
    simp only [first_keys_nat, List.mem_cons]
    constructor
    · rintro (rfl | hmem)
      · exact .inl rfl
      · exact .inr (ih.mp (List.mem_of_mem_filter hmem))
    · rintro (rfl | hmem)
      · exact .inl rfl
      · by_cases hay : a = y
        · exact .inl hay
        · right
          rw [List.mem_filter]
          exact ⟨ih.mpr hmem, by simp [hay]⟩

/-- Dict keys are pairwise distinct. -/
theorem first_keys_nat_nodup (l : List Nat) : (first_keys_nat l).Nodup := by
  induction l with
  | nil => simp [first_keys_nat]
  | cons y ys ih =>
    simp only [first_keys_nat]
    rw [List.nodup_cons]
    refine ⟨?_, ih.filter _⟩
    intro hmem
    have hne := (List.mem_filter.mp hmem).2
    simp at hne

/-- The number of dict keys is the number of distinct values. -/
theorem first_keys_nat_length (l : List Nat) :
    (first_keys_nat l).length = l.dedup.length := by
  have hperm : List.Perm (first_keys_nat l) l.dedup := by
    rw [List.perm_ext_iff_of_nodup (first_keys_nat_nodup l) (List.nodup_dedup l)]
    intro a
    rw [first_keys_nat_mem, List.mem_dedup]
  exact hperm.length_eq

/-- C4.  The per-year quota used by the selection is 3 when the number of
distinct years present is at most 4, 2 when it is 5 or 6, and 1 beyond
that. -/
theorem c4_quota_thresholds (ps : List Photo) :
    photos_per_year ps =
      if (ps.map (fun p => p.year)).dedup.length ≤ 4 then 3
      else if (ps.map (fun p => p.year)).dedup.length ≤ 6 then 2
      else 1 := by
  unfold photos_per_year photos_by_year_keys
  rw [first_keys_nat_length]

/-! ## Properties of the yearly selection (C1, C5) -/

/-- With the first bucket exhausted the loop drains the second. -/
theorem pick_loop_nil_left : ∀ (k i : Nat) (d2 : List Photo),
    pick_loop k i [] d2 = d2.take k := by
  intro k
  induction k with
  | zero =>
    intro i d2
    simp [pick_loop]
  | succ k ih =>
    intro i d2
    by_cases hi : i % 2 = 0 <;> cases d2 <;> simp [pick_loop, hi, ih]

/-- With the second bucket exhausted the loop drains the first. -/
theorem pick_loop_nil_right : ∀ (k i : Nat) (d1 : List Photo),
    pick_loop k i d1 [] = d1.take k := by
  intro k
  induction k with
  | zero =>
    intro i d1
    simp [pick_loop]
  | succ k ih =>
    intro i d1
    by_cases hi : i % 2 = 0 <;> cases d1 <;> simp [pick_loop, hi, ih]

/-- The selection loop is the spec's alternating interleave: the parity of
the loop index plays the role of the whose-turn flag. -/
theorem pick_loop_eq_spec : ∀ (q i : Nat) (d1 d2 : List Photo),
    pick_loop q i d1 d2 = spec_alternate (i % 2 == 0) d1 d2 q := by
  intro q
  induction q with
  | zero =>
    intro i d1 d2
    simp [pick_loop, spec_alternate]
  | succ q ih =>
    intro i d1 d2
    by_cases hi : i % 2 = 0
    · have hb : (i % 2 == 0) = true := by simp [hi]
      have hb2 : ((i + 1) % 2 == 0) = false := by
        have : (i + 1) % 2 = 1 := by omega
        simp [this]
      rw [hb]
      cases d1 with
      | cons x xs =>
        simp only [pick_loop, if_pos hi, spec_alternate]
        rw [ih, hb2]
      | nil =>
        cases d2 with
        | nil => simp [pick_loop, hi, spec_alternate, pick_loop_nil_left]
        | cons b ys => simp [pick_loop, hi, spec_alternate, pick_loop_nil_left]
    · have hb : (i % 2 == 0) = false := by simp [hi]
      have hb2 : ((i + 1) % 2 == 0) = true := by
        have : (i + 1) % 2 = 0 := by omega
        simp [this]
      rw [hb]
      cases d2 with
      | cons b ys =>
        simp only [pick_loop, if_neg hi, spec_alternate]
        rw [ih, hb2]
      | nil =>
        cases d1 with
        | nil => simp [pick_loop, hi, spec_alternate, pick_loop_nil_right]
        | cons x xs => simp [pick_loop, hi, spec_alternate, pick_loop_nil_right]

/-- The per-year selection keeps `min quota (bucket sizes)` photos. -/
theorem pick_loop_length : ∀ (q i : Nat) (d1 d2 : List Photo),
    (pick_loop q i d1 d2).length = min q (d1.length + d2.length) := by
  intro q
  induction q with
  | zero =>
    intro i d1 d2
    simp [pick_loop]
  | succ q ih =>
    intro i d1 d2
    by_cases hi : i % 2 = 0 <;> cases d1 <;> cases d2 <;>
      simp [pick_loop, hi, ih] <;> omega

/-- Everything the per-year loop picks comes from one of the two buckets. -/
theorem mem_pick_loop : ∀ (q i : Nat) (d1 d2 : List Photo) (x : Photo),
    x ∈ pick_loop q i d1 d2 → x ∈ d1 ∨ x ∈ d2 := by
  intro q
  induction q with
  | zero =>
    intro i d1 d2 x h
    simp [pick_loop] at h
  | succ q ih =>
    intro i d1 d2 x h
    by_cases hi : i % 2 = 0
    · cases d1 with
      | cons a xs =>
        simp only [pick_loop, if_pos hi] at h
        rcases List.mem_cons.mp h with rfl | h2
        · exact .inl (List.mem_cons_self _ _)
        · rcases ih (i + 1) xs d2 x h2 with h3 | h3
          · exact .inl (List.mem_cons_of_mem _ h3)
          · exact .inr h3
      | nil =>
        cases d2 with
        | nil =>
          rw [pick_loop_nil_left] at h
          simp at h
        | cons b ys =>
          simp only [pick_loop, if_pos hi] at h
          rcases List.mem_cons.mp h with rfl | h2
          · exact .inr (List.mem_cons_self _ _)
          · rcases ih (i + 1) [] ys x h2 with h3 | h3
            · simp at h3
            · exact .inr (List.mem_cons_of_mem _ h3)
    · cases d2 with
      | cons b ys =>
        simp only [pick_loop, if_neg hi] at h
        rcases List.mem_cons.mp h with rfl | h2
        · exact .inr (List.mem_cons_self _ _)
        · rcases ih (i + 1) d1 ys x h2 with h3 | h3
          · exact .inl h3
          · exact .inr (List.mem_cons_of_mem _ h3)
      | nil =>
        cases d1 with
        | nil =>
          rw [pick_loop_nil_right] at h
          simp at h
        | cons a xs =>
          simp only [pick_loop, if_neg hi] at h
          rcases List.mem_cons.mp h with rfl | h2
          · exact .inl (List.mem_cons_self _ _)
          · rcases ih (i + 1) xs [] x h2 with h3 | h3
            · exact .inl (List.mem_cons_of_mem _ h3)
            · simp at h3

/-- Every photo selected from a year's slice carries that year. -/
theorem select_from_year_year {ps : List Photo} {y quota : Nat} {p : Photo}
    (h : p ∈ select_from_year (year_group ps y) quota) : p.year = y := by
  unfold select_from_year at h
  have hb : p ∈ source_bucket .disk1 (year_group ps y) ∨
      p ∈ source_bucket .disk2 (year_group ps y) := mem_pick_loop _ _ _ _ _ h
  have hg : p ∈ year_group ps y := by
    rcases hb with hb | hb
    · exact List.mem_of_mem_filter hb
    · exact List.mem_of_mem_filter hb
  have := (List.mem_filter.mp hg).2
  simpa using this

/-- The outer year loop, from any accumulator shorter than the cap, appends
the per-year slices of the remaining years and truncates at 12. -/
theorem select_years_loop_take (ps : List Photo) (quota : Nat) :
    ∀ (ys : List Nat) (acc : List Photo), acc.length ≤ 12 →
      select_years_loop ps quota ys acc =
        (acc ++ (ys.map
          (fun y => select_from_year (year_group ps y) quota)).flatten).take 12 := by
  intro ys
  induction ys with
  | nil =>
    intro acc hacc
    simp [select_years_loop, List.take_of_length_le hacc]
  | cons y ys ih =>
    intro acc hacc
    simp only [select_years_loop]
    by_cases h12 : 12 ≤ (acc ++ select_from_year (year_group ps y) quota).length
    · rw [if_pos h12, List.map_cons, List.flatten_cons, ← List.append_assoc,
        List.take_append_of_le_length h12]
    · rw [if_neg h12, ih _ (by omega), List.map_cons, List.flatten_cons,
        ← List.append_assoc]

/-- The whole selection: concatenate the ascending years' slices, truncated
at the cap of 12. -/
theorem select_photos_take (ps : List Photo) :
    select_photos ps =
      ((sorted_years ps).map
        (fun y => select_from_year (year_group ps y)
          (photos_per_year ps))).flatten.take 12 := by
  unfold select_photos
  rw [select_years_loop_take ps _ _ [] (by simp)]
  simp

/-- The selection output is pairwise ascending in years. -/
theorem select_photos_pairwise_year (ps : List Photo) :
    List.Pairwise (fun a b : Photo => a.year ≤ b.year) (select_photos ps) := by
  rw [select_photos_take]
  apply List.Pairwise.sublist (List.take_sublist _ _)
  apply List.pairwise_flatten.mpr
  constructor
  · intro l hl
    obtain ⟨y, _, rfl⟩ := List.mem_map.mp hl
    apply List.pairwise_of_forall_mem_list
    intro a ha b hb
    rw [select_from_year_year ha, select_from_year_year hb]
  · apply List.pairwise_map.mpr
    have hs : List.Pairwise (fun a b : Nat => a ≤ b) (sorted_years ps) :=
      List.sorted_insertionSort (fun a b : Nat => a ≤ b) (photos_by_year_keys ps)
    apply hs.imp
    intro y1 y2 h12 a ha b hb
    rw [select_from_year_year ha, select_from_year_year hb]
    exact h12

/-- C5.  The selection output is grouped by ascending year, and within a
year the loop is exactly the spec's alternation: strictly alternating
source tags starting with the primary source whenever both buckets are
non-empty, falling back to the other bucket's remaining items when one is
exhausted; in particular with both buckets non-empty and quota at least 2
the first two picks are primary then secondary. -/
theorem c5_order_and_interleaving (ps g : List Photo) (q k : Nat) (x y : Photo)
    (xs ys : List Photo) :
    List.Sorted (fun a b => a ≤ b) ((select_photos ps).map (fun p => p.year))
    ∧ select_from_year g q =
        spec_alternate true (source_bucket .disk1 g) (source_bucket .disk2 g) q
    ∧ (pick_loop (k + 2) 0 (x :: xs) (y :: ys)).take 2 = [x, y] := by
  refine ⟨?_, ?_, ?_⟩
  · exact List.pairwise_map.mpr (select_photos_pairwise_year ps)
  · unfold select_from_year
    have h := pick_loop_eq_spec q 0 (source_bucket .disk1 g)
      (source_bucket .disk2 g)
    simpa using h
  · simp [pick_loop]

/-- Every photo of a correctly tagged year slice sits in one of the two
source buckets, so the buckets partition the slice. -/
theorem bucket_partition_length (g : List Photo)
    (hg : ∀ p ∈ g, p.source ≠ none) :
    (source_bucket .disk1 g).length + (source_bucket .disk2 g).length =
      g.length := by
  induction g with
  | nil => rfl
  | cons p ps ih =>
    have hp := hg p (List.mem_cons_self _ _)
    have hrest : ∀ q ∈ ps, q.source ≠ none :=
      fun q hq => hg q (List.mem_cons_of_mem _ hq)
    have ihh := ih hrest
    unfold source_bucket at ihh ⊢
    cases hs : p.source with
    | none => exact absurd hs hp
    | some s =>
      cases s with
      | disk1 =>
        rw [List.filter_cons_of_pos (by simp [hs]),
          List.filter_cons_of_neg (by simp [hs])]
        simp only [List.length_cons]
        omega
      | disk2 =>
        rw [List.filter_cons_of_neg (by simp [hs]),
          List.filter_cons_of_pos (by simp [hs])]
        simp only [List.length_cons]
        omega

/-- A year slice of a tagged match set yields `min quota (year count)`
photos. -/
theorem select_from_year_length (ps : List Photo) (y quota : Nat)
    (h : ∀ p ∈ ps, p.source ≠ none) :
    (select_from_year (year_group ps y) quota).length =
      min quota ((year_group ps y).length) := by
  unfold select_from_year
  rw [pick_loop_length]
  rw [bucket_partition_length]
  exact fun p hp => h p (List.mem_of_mem_filter hp)

/-- C1 amended.  For a fully tagged match set the selection returns exactly
`min cap (sum over ascending years of min(quota, year count))` items — in
particular never more than the cap of 12, but possibly fewer than
`min(cap, total matches)`. -/
theorem c1_selection_length (ps : List Photo)
    (h : ∀ p ∈ ps, p.source ≠ none) :
    (select_photos ps).length =
      min 12 (((sorted_years ps).map
        (fun y => min (photos_per_year ps)
          ((year_group ps y).length))).sum)
    ∧ (select_photos ps).length ≤ 12 := by
  constructor
  · rw [select_photos_take, List.length_take, List.length_flatten,
      List.map_map]
    congr 2
    apply List.map_congr_left
    intro y _
    exact select_from_year_length ps y (photos_per_year ps) h
  · rw [select_photos_take, List.length_take]
    exact Nat.min_le_left _ _

/-- A tagged photo fixture for the selection claims. -/
def tag_photo (y : Nat) (s : Source) : Photo :=
  { name := "p", path := "/p", download_url := "http://u", created := none,
    modified := none, date := ⟨y, 6, 15, 0, 0, 0⟩, year := y, size := 0,
    source := some s }

/-- A match set with five distinct years and three photos per year: the
quota becomes 2, so only 10 photos are selected although
`min (cap, total) = min (12, 15) = 12`. -/
def c1_matches : List Photo :=
  [tag_photo 2001 .disk1, tag_photo 2001 .disk1, tag_photo 2001 .disk1,
   tag_photo 2002 .disk1, tag_photo 2002 .disk1, tag_photo 2002 .disk1,
   tag_photo 2003 .disk1, tag_photo 2003 .disk1, tag_photo 2003 .disk1,
   tag_photo 2004 .disk1, tag_photo 2004 .disk1, tag_photo 2004 .disk1,
   tag_photo 2005 .disk1, tag_photo 2005 .disk1, tag_photo 2005 .disk1]

/-- Counterexample to C1 as stated: on `c1_matches` (15 matches in 5 years)
the selection returns 10 items, strictly fewer than
`min (cap, total matches) = 12`. -/
theorem c1_counterexample :
    (select_photos c1_matches).length = 10
    ∧ (select_photos c1_matches).length < min 12 c1_matches.length := by
  constructor
  · decide
  · decide

/-- Fixture for the C1 witness: two years, mixed sources. -/
def c1_small : List Photo :=
  [tag_photo 2019 .disk1, tag_photo 2019 .disk2, tag_photo 2021 .disk1]

/-- Witness for the amended C1 at a concrete tagged match set. -/
theorem c1_selection_length_witness :
    (select_photos c1_small).length =
      min 12 (((sorted_years c1_small).map
        (fun y => min (photos_per_year c1_small)
          ((year_group c1_small y).length))).sum)
    ∧ (select_photos c1_small).length ≤ 12 :=
  c1_selection_length c1_small (by decide)

/-! ## Properties of the publisher (C8, C9) -/

set_option maxRecDepth 100000 in
/-- Counterexample to C8 as stated.  `MAX_CAPTION_LENGTH` is declared but no
truncation is applied: a photo whose `year` value has 1022 decimal digits
yields a caption of 1026 characters, and exactly that untruncated caption
is placed in the send payload. -/
theorem c8_counterexample :
    MAX_CAPTION_LENGTH <
      (single_photo_caption (tag_photo (10 ^ 1021) .disk1)).length
    ∧ send_single_photo_payload (tag_photo (10 ^ 1021) .disk1) =
        some ((tag_photo (10 ^ 1021) .disk1).download_url,
          single_photo_caption (tag_photo (10 ^ 1021) .disk1)) := by
  constructor
  · decide
  · rfl

/-- C8 amended.  No truncation is performed; the caption built for a photo
is `str(year) ++ " год"` (single send) or `str(year)` (media-group item),
so it stays within the declared 1024-character ceiling exactly when the
year's decimal numeral is short enough — which holds for every year the
date resolver can produce (at most 4 digits). -/
theorem c8_caption_length (p : Photo)
    (h : (toString p.year).length ≤ 1020) :
    (single_photo_caption p).length ≤ MAX_CAPTION_LENGTH
    ∧ (media_item_caption true p).length ≤ MAX_CAPTION_LENGTH := by
  unfold single_photo_caption media_item_caption MAX_CAPTION_LENGTH
  constructor
  · by_cases hy : p.year ≠ 0
    · rw [if_pos hy, String.length_append]
      have h4 : (" год" : String).length = 4 := rfl
      rw [h4]
      omega
    · rw [if_neg hy]
      decide
  · by_cases hy : p.year = 0
    · simp [hy]
    · simp only [hy, decide_not, Bool.true_and]
      rw [if_pos (by simp [hy])]
      omega

/-- Witness for the amended C8 at a resolver-producible year. -/
theorem c8_caption_length_witness :
    (single_photo_caption (tag_photo 2020 .disk1)).length ≤ MAX_CAPTION_LENGTH
    ∧ (media_item_caption true (tag_photo 2020 .disk1)).length ≤
        MAX_CAPTION_LENGTH :=
  c8_caption_length (tag_photo 2020 .disk1) (by decide)

/-- Counterexample to C9 as stated.  On a 429 response that carries
`retry_after = 3`, `_send_single_photo` performs no retry at all: one
attempt, no sleep, immediate failure — not "exactly one blocking retry". -/
theorem c9_counterexample :
    send_single_photo (tag_photo 2020 .disk1) (.rateLimited (some 3)) =
      { ok := false, attempts := 1, sleeps := [] } := rfl

/-- C9 amended.  `send_message` and `_send_media_group` react to a 429
carrying `retry_after` with exactly one blocking retry after sleeping
`retry_after + 1` seconds, and report failure if the retry fails, with no
further retries; `_send_single_photo`, however, never retries (at most one
attempt for any response). -/
theorem c9_rate_limit_retry (ra : Nat) (r2 r : Resp) (p : Photo)
    (ps : List Photo) (hp : p.download_url ≠ "") :
    (send_message (.rateLimited (some ra)) r2).attempts = 2
    ∧ (send_message (.rateLimited (some ra)) r2).sleeps = [ra + 1]
    ∧ ((send_message (.rateLimited (some ra)) r2).ok = true ↔ r2 = .success)
    ∧ (send_media_group (p :: ps) (.rateLimited (some ra)) r2).attempts = 2
    ∧ (send_media_group (p :: ps) (.rateLimited (some ra)) r2).sleeps = [ra + 1]
    ∧ ((send_media_group (p :: ps) (.rateLimited (some ra)) r2).ok = true ↔
        r2 = .success)
    ∧ (send_single_photo p r).attempts ≤ 1 := by
  have hme : (media_entries true (p :: ps)).isEmpty = false := by
    unfold media_entries
    rw [List.filter_cons_of_pos (by simp [hp])]
    rfl
  refine ⟨?_, ?_, ?_, ?_, ?_, ?_, ?_⟩
  · cases r2 <;> rfl
  · cases r2 <;> rfl
  · cases r2 <;> simp [send_message]
  · cases r2 <;> simp [send_media_group, hme]
  · cases r2 <;> simp [send_media_group, hme]
  · cases r2 <;> simp [send_media_group, hme]
  · cases hpay : send_single_photo_payload p <;> cases r <;>
      simp [send_single_photo, hpay]

/-- Witness for the amended C9: a 429 with `retry_after = 3` followed by a
failing retry on `send_message` and the media group, and a 429 given to the
single-photo send. -/
theorem c9_rate_limit_retry_witness :
    (send_message (.rateLimited (some 3)) .timeout).attempts = 2
    ∧ (send_message (.rateLimited (some 3)) .timeout).sleeps = [3 + 1]
    ∧ ((send_message (.rateLimited (some 3)) .timeout).ok = true ↔
        Resp.timeout = .success)
    ∧ (send_media_group [tag_photo 2020 .disk1] (.rateLimited (some 3))
        .timeout).attempts = 2
    ∧ (send_media_group [tag_photo 2020 .disk1] (.rateLimited (some 3))
        .timeout).sleeps = [3 + 1]
    ∧ ((send_media_group [tag_photo 2020 .disk1] (.rateLimited (some 3))
        .timeout).ok = true ↔ Resp.timeout = .success)
    ∧ (send_single_photo (tag_photo 2020 .disk1)
        (.rateLimited (some 3))).attempts ≤ 1 :=
  c9_rate_limit_retry 3 .timeout (.rateLimited (some 3))
    (tag_photo 2020 .disk1) [] (by decide)

end FamilyBot
